import Mathlib

/-!
Verification development for the async ESP-IDF HTTP client connection
(`src/http/client_async.rs`).

The Rust source is shallowly embedded: the native ESP-IDF engine
(`esp_http_client_*`) is an external collaborator, so each of its calls is
modelled by an oracle value describing the return code and the callback
events the engine fires synchronously during the call, and every native
invocation made by the embedded code is recorded in an explicit trace.
Connection state (`EspHttpConnection`) is threaded explicitly.
-/

namespace ClientAsync

/-! ### ASCII case-insensitive strings

`eq_ignore_ascii_case` in Rust, and the `Uncased`/`UncasedStr` keys of the
header `BTreeMap`, compare strings after ASCII lowercasing. -/

/-- ASCII lowercasing of a single character (only `A`–`Z` are mapped). -/
def asciiLower (c : Char) : Char :=
  if 65 ≤ c.toNat ∧ c.toNat ≤ 90 then Char.ofNat (c.toNat + 32) else c

/-- ASCII lowercasing of a string. -/
def lowerStr (s : String) : String :=
  String.mk (s.data.map asciiLower)

/-- Models Rust `str::eq_ignore_ascii_case` and the case-insensitive key
equality of `Uncased`. -/
def eqIgnoreCase (a b : String) : Bool :=
  lowerStr a == lowerStr b

/-! ### The Header Store

`headers : BTreeMap<Uncased<'static>, String>` is modelled by its observable
behaviour: a map from case-insensitive names to values.  `hinsert` models
`BTreeMap::insert` (last write for a case-insensitively equal key wins) and
`hget` models `BTreeMap::get(UncasedStr::new(name))`. -/

abbrev HeaderMap := String → Option String

/-- The empty header store (`BTreeMap::new` / `clear`). -/
def hempty : HeaderMap := fun _ => none

/-- `BTreeMap::insert` with a case-insensitive key. -/
def hinsert (m : HeaderMap) (k v : String) : HeaderMap :=
  fun name => if eqIgnoreCase name k then some v else m name

/-- `BTreeMap::get(UncasedStr::new(name))`. -/
def hget (m : HeaderMap) (name : String) : Option String := m name

/-! ### Basic enums of the source -/

/-- `embedded_svc::http::Method` (the constructors the client distinguishes). -/
inductive Method
  | Get
  | Head
  | Post
  | Put
  | Delete
deriving DecidableEq

/-- `FollowRedirectsPolicy` from the source (lines 47–51). -/
inductive FollowRedirectsPolicy
  | FollowNone
  | FollowGetHead
  | FollowAll
deriving DecidableEq

/-- The private `State` enum of the source (lines 73–78). -/
inductive State
  | New
  | Request
  | Response
deriving DecidableEq

/-- Which closure currently occupies the single `event_handler` slot:
the header-collecting closure of `fetch_headers` (lines 351–365) or the
completion-bridge closure of `ClientFuture::new` (lines 584–596). -/
inductive Handler
  | headerCollector
  | completionBridge
deriving DecidableEq

/-! ### Native calls and callback events -/

/-- One invocation of a native `esp_http_client_*` primitive, as recorded in
the execution trace. -/
inductive NativeCall
  | setUrl (uri : String)
  | setMethod (m : Method)
  | setHeader (name value : String)
  | openCall (len : Nat)
  | fetchHeadersCall
  | getStatusCode
  | flushResponse
  | setRedirection
  | getContentLength
deriving DecidableEq

/-- An `esp_http_client_event_t` delivered synchronously to the registered
handler. -/
structure HttpEvent where
  event_id : Int
  header_key : String
  header_value : String
deriving DecidableEq

/-- `esp_http_client_event_id_t_HTTP_EVENT_ON_CONNECTED` (the literal `1`
compared against in `ClientFuture::new`). -/
def HTTP_EVENT_ON_CONNECTED : Int := 1

/-- `esp_http_client_event_id_t_HTTP_EVENT_ON_HEADER`. -/
def HTTP_EVENT_ON_HEADER : Int := 3

/-! ### The connection -/

/-- `EspHttpConnection` (lines 81–90).  The opaque `raw_client` handle is
not represented: all native interaction goes through the oracle. -/
structure EspHttpConnection where
  follow_redirects_policy : FollowRedirectsPolicy
  event_handler : Option Handler
  state : State
  request_content_len : Nat
  follow_redirects : Bool
  headers : HeaderMap
  content_len_header : Option (Option String)

/-- `register_handler` (lines 410–415): overwrites whatever handler is in
the slot. -/
def register_handler (c : EspHttpConnection) (h : Handler) : EspHttpConnection :=
  { c with event_handler := some h }

/-- `deregister_handler` (lines 417–419). -/
def deregister_handler (c : EspHttpConnection) : EspHttpConnection :=
  { c with event_handler := none }

/-- The successful branch of `EspHttpConnection::new` (lines 137–147): the
initial field values of a fresh connection. -/
def newConnection (policy : FollowRedirectsPolicy) : EspHttpConnection :=
  { follow_redirects_policy := policy
    event_handler := none
    state := State.New
    request_content_len := 0
    follow_redirects := false
    headers := hempty
    content_len_header := none }

/-- `Self::check` (lines 318–323): `Err` exactly when the native result is
negative, otherwise the result reinterpreted as a byte count. -/
def check (result : Int) : Except Int Nat :=
  if result < 0 then Except.error result else Except.ok result.toNat

/-- `embedded_svc::http::status::REDIRECT.contains(&status)` — the redirect
status class `300..400` of the external `embedded-svc` crate. -/
def redirectContains (status_code : Nat) : Bool :=
  decide (300 ≤ status_code ∧ status_code < 400)

/-- The header-collecting closure of `fetch_headers` (lines 351–365): for
each delivered event, insert `(header_key, header_value)` into the store
when the event is `HTTP_EVENT_ON_HEADER`, ignore it otherwise. -/
def runHandler (m : HeaderMap) (events : List HttpEvent) : HeaderMap :=
  events.foldl
    (fun m e =>
      if e.event_id = HTTP_EVENT_ON_HEADER then hinsert m e.header_key e.header_value else m)
    m

/-! ### The header-fetch-and-redirect loop (`fetch_headers`, lines 343–408)

Each loop iteration performs one blocking `esp_http_client_fetch_headers`
call; the oracle describes, per iteration, that call's return code, the
events it fires, the status code the engine would report, and the return
codes of the four redirect-preparation primitives. -/

/-- The oracle for one iteration of the header-fetch loop: the behaviour of
the native engine during that iteration. -/
structure Attempt where
  events : List HttpEvent
  fetch_result : Int
  status_code : Nat
  flush_err : Int
  set_method_err : Int
  set_redirection_err : Int
  open_err : Int
deriving DecidableEq

/-- Execution trace of a header fetch: all native calls in order, plus the
`(headers, content_len_header)` pair observed at the moment each
`esp_http_client_fetch_headers` call is issued. -/
structure FetchLog where
  calls : List NativeCall
  at_fetch : List (HeaderMap × Option (Option String))

/-- Result of `fetch_headers` / `initiate_response`.  `panicked` models a
phase-assertion panic; `outOfAttempts` is a modelling artifact marking that
the loop needed one more native fetch than the oracle supplied behaviour
for (the real code would be inside a blocking native call, not returning). -/
inductive OpResult
  | panicked
  | ok (c : EspHttpConnection) (log : FetchLog)
  | err (code : Int) (c : EspHttpConnection) (log : FetchLog)
  | outOfAttempts (c : EspHttpConnection) (log : FetchLog)

/-- The trace of an operation (empty for a panic, which aborts). -/
def OpResult.logOf : OpResult → FetchLog
  | OpResult.panicked => ⟨[], []⟩
  | OpResult.ok _ log => log
  | OpResult.err _ _ log => log
  | OpResult.outOfAttempts _ log => log

/-- The `loop` body of `fetch_headers` (lines 347–405), one oracle entry per
iteration: register the header-collecting handler, run the blocking native
fetch (which fires the events synchronously), deregister the handler
unconditionally, check the fetch result, and either follow a redirect
(flush, force GET, prepare redirection, re-open with the declared request
length, clear the store, continue) or exit. -/
def fetchLoop : EspHttpConnection → List Attempt → FetchLog → OpResult
  | c, [], log => OpResult.outOfAttempts c log
  | c, a :: rest, log =>
    let log1 : FetchLog :=
      ⟨log.calls ++ [NativeCall.fetchHeadersCall],
       log.at_fetch ++ [(c.headers, c.content_len_header)]⟩
    let c1 := register_handler c Handler.headerCollector
    let c2 := { c1 with headers := runHandler c1.headers a.events }
    let c3 := deregister_handler c2
    match check a.fetch_result with
    | Except.error e => OpResult.err e c3 log1
    | Except.ok _ =>
      if c3.follow_redirects then
        let log2 : FetchLog := ⟨log1.calls ++ [NativeCall.getStatusCode], log1.at_fetch⟩
        if redirectContains a.status_code ∧ a.status_code ≠ 304 then
          let log3 : FetchLog := ⟨log2.calls ++ [NativeCall.flushResponse], log2.at_fetch⟩
          if a.flush_err ≠ 0 then OpResult.err a.flush_err c3 log3
          else
            let log4 : FetchLog :=
              ⟨log3.calls ++ [NativeCall.setMethod Method.Get], log3.at_fetch⟩
            if a.set_method_err ≠ 0 then OpResult.err a.set_method_err c3 log4
            else
              let log5 : FetchLog :=
                ⟨log4.calls ++ [NativeCall.setRedirection], log4.at_fetch⟩
              if a.set_redirection_err ≠ 0 then OpResult.err a.set_redirection_err c3 log5
              else
                let log6 : FetchLog :=
                  ⟨log5.calls ++ [NativeCall.openCall c3.request_content_len], log5.at_fetch⟩
                if a.open_err ≠ 0 then OpResult.err a.open_err c3 log6
                else fetchLoop { c3 with headers := hempty } rest log6
        else OpResult.ok c3 log2
      else OpResult.ok c3 log1

/-- `fetch_headers` (lines 343–408): clear the header store and the cached
content length, then run the loop. -/
def fetch_headers (c : EspHttpConnection) (attempts : List Attempt) : OpResult :=
  fetchLoop { c with headers := hempty, content_len_header := none } attempts ⟨[], []⟩

/-- `initiate_response` (lines 268–276): `assert_request`, run
`fetch_headers`, and transition to `Response` on success. -/
def initiate_response (c : EspHttpConnection) (attempts : List Attempt) : OpResult :=
  if c.state ≠ State.Request then OpResult.panicked
  else
    match fetch_headers c attempts with
    | OpResult.ok c1 log => OpResult.ok { c1 with state := State.Response } log
    | r => r

/-! ### `initiate_request` (lines 185–262) -/

/-- The panic condition of `assert_initial` (lines 421–425): panic exactly
when the state is neither `New` nor `Response`. -/
def assert_initial_panics (s : State) : Bool :=
  decide (s ≠ State.New) && decide (s ≠ State.Response)

/-- The numeric value of a decimal digit character. -/
def digitVal (c : Char) : Option Nat :=
  if 48 ≤ c.toNat ∧ c.toNat ≤ 57 then some (c.toNat - 48) else none

/-- Decimal evaluation of a character list (fails on a non-digit). -/
def parseDecimal : List Char → Nat → Option Nat
  | [], n => some n
  | c :: cs, n =>
    match digitVal c with
    | some d => parseDecimal cs (n * 10 + d)
    | none => none

/-- Rust `value.parse::<u64>()` restricted to what the claims need: a full
decimal-digit parse that fails on an empty string, on a non-digit, and when
the value does not fit in 64 bits. -/
def parseU64 (s : String) : Option Nat :=
  match s.data with
  | [] => none
  | cs =>
    match parseDecimal cs 0 with
    | some n => if n < 2 ^ 64 then some n else none
    | none => none

/-- Per-call oracle for `initiate_request`: return codes of `set_url`,
`set_method`, the per-header `set_header` calls (missing entries default to
success), and the two `open` calls — whose codes the source discards. -/
structure RequestOracle where
  set_url_err : Int
  set_method_err : Int
  set_header_errs : List Int
  open_err_1 : Int
  open_err_2 : Int

/-- Result of `initiate_request`. -/
inductive ReqResult
  | panicked
  | err (code : Int) (c : EspHttpConnection)
  | ok (c : EspHttpConnection) (calls : List NativeCall)

/-- `true` exactly on the successful (`Ok(())`) outcome. -/
def ReqResult.isOk : ReqResult → Bool
  | ReqResult.ok _ _ => true
  | _ => false

/-- The event-handler slot of the returned connection (`none` on a panic,
where no connection is returned). -/
def ReqResult.handlerOf : ReqResult → Option (Option Handler)
  | ReqResult.panicked => none
  | ReqResult.err _ c => some c.event_handler
  | ReqResult.ok c _ => some c.event_handler

/-- The header loop of `initiate_request` (lines 205–224): scan each header
for a parsable `Content-Length` (last parsable one wins) and issue a
`set_header` native call per header, propagating the first failure. -/
def setHeaders :
    List (String × String) → List Int → Option Nat → Except Int (Option Nat × List NativeCall)
  | [], _, content_len => Except.ok (content_len, [])
  | (name, value) :: rest, errs, content_len =>
    let content_len1 :=
      if eqIgnoreCase name "Content-Length" then
        match parseU64 value with
        | some len => some len
        | none => content_len
      else content_len
    if errs.headD 0 ≠ 0 then Except.error (errs.headD 0)
    else
      match setHeaders rest errs.tail content_len1 with
      | Except.error e => Except.error e
      | Except.ok (cl, calls) => Except.ok (cl, NativeCall.setHeader name value :: calls)

/-- `initiate_request` (lines 185–262): `assert_initial`; `set_url` and
`set_method` (errors propagated); the header loop; compute the effective
follow-redirects flag from policy and method and the declared content
length; then `ClientFuture::new(self).await` — which registers the
completion-bridge handler and issues the first `open` — followed by the
second `open` (both open return codes are discarded by the source) and the
transition to `Request`.  The commented-out `deregister_handler` of line
242 means the bridge handler is left registered. -/
def initiate_request (c : EspHttpConnection) (method : Method) (uri : String)
    (headers : List (String × String)) (o : RequestOracle) : ReqResult :=
  if assert_initial_panics c.state then ReqResult.panicked
  else if o.set_url_err ≠ 0 then ReqResult.err o.set_url_err c
  else if o.set_method_err ≠ 0 then ReqResult.err o.set_method_err c
  else
    match setHeaders headers o.set_header_errs none with
    | Except.error e => ReqResult.err e c
    | Except.ok (content_len, hcalls) =>
      let follow :=
        match c.follow_redirects_policy with
        | FollowRedirectsPolicy.FollowAll => true
        | FollowRedirectsPolicy.FollowGetHead =>
          method == Method.Get || method == Method.Head
        | FollowRedirectsPolicy.FollowNone => false
      let len := content_len.getD 0
      let c1 := { c with follow_redirects := follow, request_content_len := len }
      let c2 := register_handler c1 Handler.completionBridge
      let c3 := { c2 with state := State.Request }
      ReqResult.ok c3
        ([NativeCall.setUrl uri, NativeCall.setMethod method] ++ hcalls ++
          [NativeCall.openCall len, NativeCall.openCall len])

/-! ### The header accessor (`header`, lines 160–183) -/

/-- Result of one `header` call: the (possibly updated, via the
`UnsafeCell`) connection, the returned value, and the native calls made. -/
inductive HeaderResult
  | panicked
  | ok (c : EspHttpConnection) (value : Option String) (calls : List NativeCall)

/-- The native calls made by a `header` call (`none` on panic). -/
def HeaderResult.callsOf : HeaderResult → Option (List NativeCall)
  | HeaderResult.panicked => none
  | HeaderResult.ok _ _ calls => some calls

/-- The value returned by a `header` call (`none` on panic). -/
def HeaderResult.valueOf : HeaderResult → Option (Option String)
  | HeaderResult.panicked => none
  | HeaderResult.ok _ v _ => some v

/-- The connection after a `header` call, with a default for the panic
case. -/
def HeaderResult.connOr (d : EspHttpConnection) : HeaderResult → EspHttpConnection
  | HeaderResult.panicked => d
  | HeaderResult.ok c _ _ => c

/-- `header` (lines 160–183).  `native_len` is the value
`esp_http_client_get_content_length` would return if queried during this
call.  A `Content-Length` query hits the cache when it is `Some`; otherwise
it queries the native accessor once and stores `Some(Some(len))` for a
nonnegative result but `None` (not `Some(None)`) for a negative one.  Any
other name is looked up in the header store. -/
def header (c : EspHttpConnection) (native_len : Int) (name : String) : HeaderResult :=
  if c.state ≠ State.Response then HeaderResult.panicked
  else if eqIgnoreCase name "Content-Length" then
    match c.content_len_header with
    | some content_len_opt => HeaderResult.ok c content_len_opt []
    | none =>
      let cache : Option (Option String) :=
        if 0 ≤ native_len then some (some (toString native_len)) else none
      HeaderResult.ok { c with content_len_header := cache } (cache.bind id)
        [NativeCall.getContentLength]
  else HeaderResult.ok c (hget c.headers name) []

/-! ### The Completion Bridge (`ClientFuture`, lines 552–607) -/

/-- `SharedState` (lines 557–560): the lock-protected completion flag and
stored waker; wakers are abstracted to tokens. -/
structure SharedState where
  completed : Bool
  waker : Option Nat
deriving DecidableEq

/-- The fresh shared state allocated by `ClientFuture::new` (lines
576–579). -/
def cfFresh : SharedState := ⟨false, none⟩

/-- Outcome of one `poll`. -/
inductive PollOut
  | Ready
  | Pending
deriving DecidableEq

/-- `Future::poll` for `ClientFuture` (lines 562–573): under the lock, if
`completed` report ready, otherwise store the current waker (overwriting
any previous one) and report pending. -/
def cfPoll (s : SharedState) (w : Nat) : SharedState × PollOut :=
  if s.completed then (s, PollOut.Ready)
  else ({ s with waker := some w }, PollOut.Pending)

/-- The callback closure registered by `ClientFuture::new` (lines 584–596):
under the lock, set `completed` when the event id is `1`, then take and
wake any stored waker (the woken waker is returned). -/
def cfCallback (s : SharedState) (event_id : Int) : SharedState × Option Nat :=
  let s1 := if event_id = 1 then { s with completed := true } else s
  ({ s1 with waker := none }, s1.waker)

/-- An interleaving step applied to the shared state: a poll by the future
or a callback from the native engine. -/
inductive CFOp
  | poll (w : Nat)
  | callback (event_id : Int)

/-- The state after one interleaving step. -/
def cfStep (s : SharedState) (op : CFOp) : SharedState :=
  match op with
  | CFOp.poll w => (cfPoll s w).1
  | CFOp.callback e => (cfCallback s e).1

/-- The state after a sequence of interleaving steps. -/
def cfRun (s : SharedState) (ops : List CFOp) : SharedState :=
  ops.foldl cfStep s

/-! ### Trace helpers and concrete fixtures -/

/-- Is this native call an `open`? -/
def isOpenCall : NativeCall → Bool
  | NativeCall.openCall _ => true
  | _ => false

/-- Number of `esp_http_client_fetch_headers` invocations in a trace. -/
def countFetch (calls : List NativeCall) : Nat :=
  calls.count NativeCall.fetchHeadersCall

/-- A fresh connection with the default redirect policy. -/
def connNew : EspHttpConnection := newConnection FollowRedirectsPolicy.FollowGetHead

/-- A connection in `Response` phase (as after a completed response cycle,
with an empty store and a cleared content-length cache). -/
def connResp : EspHttpConnection := { connNew with state := State.Response }

/-- A connection in `Request` phase with redirect following disabled. -/
def connRequest : EspHttpConnection := { connNew with state := State.Request }

/-- A connection in `Request` phase with redirect following enabled. -/
def connRequestF : EspHttpConnection :=
  { connNew with state := State.Request, follow_redirects := true }

/-- The all-success request oracle. -/
def o0 : RequestOracle := ⟨0, 0, [], 0, 0⟩

/-- A request oracle on which both `open` calls fail with `ESP_FAIL`. -/
def oOpenFail : RequestOracle := ⟨0, 0, [], -1, -1⟩

/-- A plain successful 200 fetch attempt delivering no headers. -/
def a200 : Attempt := ⟨[], 0, 200, 0, 0, 0, 0⟩

/-- A successful 301 fetch attempt delivering no headers. -/
def a301 : Attempt := ⟨[], 0, 301, 0, 0, 0, 0⟩

/-- A successful 304 fetch attempt delivering no headers. -/
def a304 : Attempt := ⟨[], 0, 304, 0, 0, 0, 0⟩

/-- A successful 200 fetch attempt delivering one header event. -/
def a200h : Attempt :=
  ⟨[⟨HTTP_EVENT_ON_HEADER, "X-Test", "final"⟩], 0, 200, 0, 0, 0, 0⟩

/-! ### Header-store round-trip lemmas -/

/-- One step of the specification-side "latest delivered value" fold: a
header event for a case-insensitively matching name overrides the
accumulator. -/
def latestStep (name : String) (acc : Option String) (e : HttpEvent) : Option String :=
  if e.event_id = HTTP_EVENT_ON_HEADER ∧ eqIgnoreCase e.header_key name = true then
    some e.header_value
  else acc

/-- The latest value delivered for `name` (case-insensitively) by a
sequence of callback events. -/
def latestHeaderValue (events : List HttpEvent) (name : String) : Option String :=
  events.foldl (latestStep name) none

theorem eqIgnoreCase_symm (a b : String) : eqIgnoreCase a b = eqIgnoreCase b a := by
  unfold eqIgnoreCase
  by_cases h : lowerStr a = lowerStr b
  · simp [h]
  · simp [beq_iff_eq, h]
    exact fun hh : lowerStr b = lowerStr a => h hh.symm

theorem hget_hinsert (m : HeaderMap) (k v name : String) :
    hget (hinsert m k v) name = if eqIgnoreCase name k then some v else hget m name := rfl

theorem foldl_latestStep_acc (events : List HttpEvent) (name : String) (acc : Option String) :
    events.foldl (latestStep name) acc
      = match events.foldl (latestStep name) none with
        | some v => some v
        | none => acc := by
  induction events generalizing acc with
  | nil => rfl
  | cons e es ih =>
    simp only [List.foldl_cons]
    rw [ih (latestStep name acc e), ih (latestStep name none e)]
    cases hL : es.foldl (latestStep name) none with
    | some v => rfl
    | none =>
      simp only []
      unfold latestStep
      split <;> rfl

theorem hget_runHandler (events : List HttpEvent) (m : HeaderMap) (name : String) :
    hget (runHandler m events) name
      = match latestHeaderValue events name with
        | some v => some v
        | none => hget m name := by
  induction events generalizing m with
  | nil => rfl
  | cons e es ih =>
    have hstep : runHandler m (e :: es)
        = runHandler
            (if e.event_id = HTTP_EVENT_ON_HEADER then
              hinsert m e.header_key e.header_value
            else m) es := by
      simp only [runHandler, List.foldl_cons]
    have hlat : latestHeaderValue (e :: es) name
        = match latestHeaderValue es name with
          | some v => some v
          | none => latestStep name none e := by
      simp only [latestHeaderValue, List.foldl_cons]
      exact foldl_latestStep_acc es name (latestStep name none e)
    rw [hstep, ih, hlat]
    cases hL : latestHeaderValue es name with
    | some v => rfl
    | none =>
      simp only []
      by_cases hid : e.event_id = HTTP_EVENT_ON_HEADER
      · by_cases hci : eqIgnoreCase e.header_key name = true
        · have hci' : eqIgnoreCase name e.header_key = true := by
            rw [eqIgnoreCase_symm]; exact hci
          simp [hid, latestStep, hci, hget, hinsert, hci']
        · have hcif : eqIgnoreCase e.header_key name = false := by
            simpa using hci
          have hci' : eqIgnoreCase name e.header_key = false := by
            rw [eqIgnoreCase_symm]; exact hcif
          simp [hid, latestStep, hcif, hget, hinsert, hci']
      · simp [hid, latestStep]

theorem hget_runHandler_empty (events : List HttpEvent) (name : String) :
    hget (runHandler hempty events) name = latestHeaderValue events name := by
  rw [hget_runHandler]
  cases latestHeaderValue events name <;> rfl

/-! ### Loop invariants of `fetch_headers` -/

theorem fetchLoop_handler_none :
    ∀ (attempts : List Attempt) (c : EspHttpConnection) (log : FetchLog),
      (∀ c1 l, fetchLoop c attempts log = OpResult.ok c1 l → c1.event_handler = none) ∧
      (∀ e c1 l, fetchLoop c attempts log = OpResult.err e c1 l → c1.event_handler = none) := by
  intro attempts
  induction attempts with
  | nil =>
    intro c log
    refine ⟨fun c1 l h => ?_, fun e c1 l h => ?_⟩ <;> simp [fetchLoop] at h
  | cons a rest ih =>
    intro c log
    refine ⟨fun c1 l h => ?_, fun e c1 l h => ?_⟩ <;>
    · simp only [fetchLoop] at h
      split at h
      · cases h <;> rfl
      · split at h
        · split at h
          · split at h
            · cases h <;> rfl
            · split at h
              · cases h <;> rfl
              · split at h
                · cases h <;> rfl
                · split at h
                  · cases h <;> rfl
                  · first
                    | (exact (ih _ _).1 _ _ h)
                    | (exact (ih _ _).2 _ _ _ h)
          · cases h <;> rfl
        · cases h <;> rfl

/-- A snapshot taken at a fetch invocation is "good" when both the header
store and the cached content length are clear at that moment. -/
def goodSnap (s : HeaderMap × Option (Option String)) : Prop :=
  s.1 = hempty ∧ s.2 = none

theorem fetchLoop_snaps :
    ∀ (attempts : List Attempt) (c : EspHttpConnection) (log : FetchLog),
      c.headers = hempty → c.content_len_header = none →
      (∀ s ∈ log.at_fetch, goodSnap s) →
      ∀ s ∈ (fetchLoop c attempts log).logOf.at_fetch, goodSnap s := by
  intro attempts
  induction attempts with
  | nil =>
    intro c log _ _ hlog
    simpa [fetchLoop, OpResult.logOf] using hlog
  | cons a rest ih =>
    intro c log hh hc hlog
    have hsnap : ∀ s ∈ log.at_fetch ++ [(c.headers, c.content_len_header)], goodSnap s := by
      intro s hs
      rcases List.mem_append.mp hs with hs | hs
      · exact hlog s hs
      · rcases List.mem_singleton.mp hs with rfl
        exact ⟨hh, hc⟩
    simp only [fetchLoop]
    split
    · simpa [OpResult.logOf] using hsnap
    · split
      · split
        · split
          · simpa [OpResult.logOf] using hsnap
          · split
            · simpa [OpResult.logOf] using hsnap
            · split
              · simpa [OpResult.logOf] using hsnap
              · split
                · simpa [OpResult.logOf] using hsnap
                · exact ih _ _ rfl (by simpa [register_handler, deregister_handler] using hc)
                    hsnap
        · simpa [OpResult.logOf] using hsnap
      · simpa [OpResult.logOf] using hsnap

/-! ### Single-iteration behaviour of the loop -/

theorem fetchLoop_cons_redirect (c : EspHttpConnection) (a : Attempt)
    (rest : List Attempt) (log : FetchLog)
    (hfol : c.follow_redirects = true) (hres : 0 ≤ a.fetch_result)
    (h3xx : redirectContains a.status_code = true) (h304 : a.status_code ≠ 304)
    (he1 : a.flush_err = 0) (he2 : a.set_method_err = 0)
    (he3 : a.set_redirection_err = 0) (he4 : a.open_err = 0) :
    fetchLoop c (a :: rest) log
      = fetchLoop { c with event_handler := none, headers := hempty } rest
          ⟨log.calls ++
              [NativeCall.fetchHeadersCall, NativeCall.getStatusCode,
                NativeCall.flushResponse, NativeCall.setMethod Method.Get,
                NativeCall.setRedirection, NativeCall.openCall c.request_content_len],
            log.at_fetch ++ [(c.headers, c.content_len_header)]⟩ := by
  have hc : check a.fetch_result = Except.ok a.fetch_result.toNat := by
    unfold check
    rw [if_neg]
    omega
  simp only [fetchLoop, hc, register_handler, deregister_handler, hfol, if_pos,
    he1, he2, he3, he4]
  rw [if_pos ⟨h3xx, h304⟩]
  simp

theorem fetchLoop_cons_nofollow (c : EspHttpConnection) (a : Attempt)
    (rest : List Attempt) (log : FetchLog)
    (hfol : c.follow_redirects = false) (hres : 0 ≤ a.fetch_result) :
    fetchLoop c (a :: rest) log
      = OpResult.ok
          { c with event_handler := none, headers := runHandler c.headers a.events }
          ⟨log.calls ++ [NativeCall.fetchHeadersCall],
            log.at_fetch ++ [(c.headers, c.content_len_header)]⟩ := by
  have hc : check a.fetch_result = Except.ok a.fetch_result.toNat := by
    unfold check
    rw [if_neg]
    omega
  simp [fetchLoop, hc, register_handler, deregister_handler, hfol]

theorem fetchLoop_cons_noredirect (c : EspHttpConnection) (a : Attempt)
    (rest : List Attempt) (log : FetchLog)
    (hfol : c.follow_redirects = true) (hres : 0 ≤ a.fetch_result)
    (hstop : redirectContains a.status_code = false ∨ a.status_code = 304) :
    fetchLoop c (a :: rest) log
      = OpResult.ok
          { c with event_handler := none, headers := runHandler c.headers a.events }
          ⟨log.calls ++ [NativeCall.fetchHeadersCall, NativeCall.getStatusCode],
            log.at_fetch ++ [(c.headers, c.content_len_header)]⟩ := by
  have hc : check a.fetch_result = Except.ok a.fetch_result.toNat := by
    unfold check
    rw [if_neg]
    omega
  have hcond : ¬(redirectContains a.status_code = true ∧ a.status_code ≠ 304) := by
    rcases hstop with h | h
    · exact fun hh => by rw [h] at hh; exact Bool.false_ne_true hh.1
    · exact fun hh => hh.2 h
  simp only [fetchLoop, hc, register_handler, deregister_handler, hfol, if_pos]
  rw [if_neg hcond]
  simp

/-! ### The redirect chain (termination and final store) -/

/-- Oracle entry describing a successfully-fetched redirect response: a 3xx
(non-304) status with every redirect-preparation primitive succeeding. -/
def isRedirectAttempt (a : Attempt) : Prop :=
  0 ≤ a.fetch_result ∧ redirectContains a.status_code = true ∧ a.status_code ≠ 304 ∧
    a.flush_err = 0 ∧ a.set_method_err = 0 ∧ a.set_redirection_err = 0 ∧ a.open_err = 0

instance : DecidablePred isRedirectAttempt := fun a => by
  unfold isRedirectAttempt
  infer_instance

/-- Oracle entry describing a successfully-fetched 200 response. -/
def isFinalOk (a : Attempt) : Prop := 0 ≤ a.fetch_result ∧ a.status_code = 200

instance : DecidablePred isFinalOk := fun a => by
  unfold isFinalOk
  infer_instance

theorem fetchLoop_redirect_chain :
    ∀ (redirs : List Attempt) (c : EspHttpConnection) (log : FetchLog) (final : Attempt),
      c.follow_redirects = true → c.headers = hempty →
      (∀ a ∈ redirs, isRedirectAttempt a) → isFinalOk final →
      ∃ c1 log1,
        fetchLoop c (redirs ++ [final]) log = OpResult.ok c1 log1 ∧
        countFetch log1.calls = countFetch log.calls + redirs.length + 1 ∧
        c1.headers = runHandler hempty final.events ∧
        c1.event_handler = none ∧
        c1.state = c.state := by
  intro redirs
  induction redirs with
  | nil =>
    intro c log final hfol hh _ hfin
    have hstop : redirectContains final.status_code = false ∨ final.status_code = 304 := by
      left
      rw [hfin.2]
      decide
    refine ⟨_, _, fetchLoop_cons_noredirect c final [] log hfol hfin.1 hstop, ?_, ?_, rfl, rfl⟩
    · simp [countFetch, List.count_append]
    · rw [hh]
  | cons a redirs ih =>
    intro c log final hfol hh hred hfin
    have ha : isRedirectAttempt a := hred a (List.mem_cons_self a redirs)
    obtain ⟨ha1, ha2, ha3, ha4, ha5, ha6, ha7⟩ := ha
    rw [List.cons_append,
      fetchLoop_cons_redirect c a (redirs ++ [final]) log hfol ha1 ha2 ha3 ha4 ha5 ha6 ha7]
    obtain ⟨c1, log1, heq, hcount, hhd, hev, hst⟩ :=
      ih { c with event_handler := none, headers := hempty }
        ⟨log.calls ++
            [NativeCall.fetchHeadersCall, NativeCall.getStatusCode,
              NativeCall.flushResponse, NativeCall.setMethod Method.Get,
              NativeCall.setRedirection, NativeCall.openCall c.request_content_len],
          log.at_fetch ++ [(c.headers, c.content_len_header)]⟩
        final hfol rfl (fun b hb => hred b (List.mem_cons_of_mem a hb)) hfin
    refine ⟨c1, log1, heq, ?_, hhd, hev, hst⟩
    rw [hcount]
    simp only [countFetch, List.count_append, List.length_cons]
    have hsix :
        List.count NativeCall.fetchHeadersCall
            [NativeCall.fetchHeadersCall, NativeCall.getStatusCode,
              NativeCall.flushResponse, NativeCall.setMethod Method.Get,
              NativeCall.setRedirection, NativeCall.openCall c.request_content_len]
          = 1 := by
      simp [List.count_cons]
    omega

/-! ### Lemmas about `initiate_request` -/

/-- `initiate_request` never reads the return codes of the two `open`
calls: its result is unchanged under any replacement of them. -/
theorem initiate_request_ignores_open (c : EspHttpConnection) (method : Method)
    (uri : String) (headers : List (String × String)) (o : RequestOracle) (x y : Int) :
    initiate_request c method uri headers
        { o with open_err_1 := x, open_err_2 := y }
      = initiate_request c method uri headers o := by
  cases o
  rfl

/-- The header loop issues only `set_header` native calls. -/
theorem setHeaders_calls_no_open :
    ∀ (hs : List (String × String)) (errs : List Int) (cl cl' : Option Nat)
      (calls : List NativeCall),
      setHeaders hs errs cl = Except.ok (cl', calls) → calls.filter isOpenCall = [] := by
  intro hs
  induction hs with
  | nil =>
    intro errs cl cl' calls h
    simp only [setHeaders, Except.ok.injEq, Prod.mk.injEq] at h
    rw [← h.2]
    rfl
  | cons p rest ih =>
    intro errs cl cl' calls h
    obtain ⟨name, value⟩ := p
    simp only [setHeaders] at h
    split at h
    · cases h
    · split at h
      · cases h
      · rename_i cl2 calls2 heq
        cases h
        simp only [List.filter_cons]
        rw [ih _ _ _ _ heq]
        rfl

/-! ### Completion-bridge lemmas -/

/-- Neither a poll nor a callback ever resets the completion flag. -/
theorem cfStep_mono (s : SharedState) (op : CFOp) (h : s.completed = true) :
    (cfStep s op).completed = true := by
  cases op with
  | poll w => simp [cfStep, cfPoll, h]
  | callback e =>
    simp only [cfStep, cfCallback]
    split <;> simp [h]

theorem cfRun_mono (s : SharedState) (ops : List CFOp) (h : s.completed = true) :
    (cfRun s ops).completed = true := by
  induction ops generalizing s with
  | nil => exact h
  | cons op ops ih =>
    simp only [cfRun, List.foldl_cons]
    exact ih (cfStep s op) (cfStep_mono s op h)

/-! ## The claims -/

/-- Claim C2: the Completion Bridge is level-triggered.  Once the shared
`completed` flag is true it is never reset by any further interleaving of
polls and callbacks; every poll that finds it true reports ready without
touching the state; every poll that finds it false stores the current waker
(overwriting any previous one) and reports pending; and if the callback for
event id 1 fires before the first poll, that first poll still reports
ready. -/
theorem claim_C2 :
    (∀ (s : SharedState) (ops : List CFOp), s.completed = true →
      (cfRun s ops).completed = true) ∧
    (∀ (s : SharedState) (w : Nat), s.completed = true →
      cfPoll s w = (s, PollOut.Ready)) ∧
    (∀ (s : SharedState) (w : Nat), s.completed = false →
      cfPoll s w = ({ s with waker := some w }, PollOut.Pending)) ∧
    (∀ w : Nat,
      (cfPoll (cfCallback cfFresh HTTP_EVENT_ON_CONNECTED).1 w).2 = PollOut.Ready) := by
  refine ⟨fun s ops h => cfRun_mono s ops h, ?_, ?_, fun w => rfl⟩
  · intro s w h
    simp [cfPoll, h]
  · intro s w h
    simp [cfPoll, h]

/-- Claim C2 witness: the theorem at concrete shared states. -/
theorem claim_C2_witness :
    (cfRun ⟨true, none⟩ [CFOp.poll 0, CFOp.callback 4]).completed = true ∧
    cfPoll ⟨false, some 7⟩ 9 = (⟨false, some 9⟩, PollOut.Pending) :=
  ⟨claim_C2.1 ⟨true, none⟩ [CFOp.poll 0, CFOp.callback 4] rfl,
    claim_C2.2.2.1 ⟨false, some 7⟩ 9 rfl⟩

/-- Claim C3 counterexample: `assert_initial` does not panic in `Response`
phase, and a connection in `Response` phase successfully runs
`initiate_request` — so the operation is not "legal only when the phase is
New", and there is a public transition out of `Response` into a new request
cycle. -/
theorem claim_C3_counterexample :
    assert_initial_panics State.Response = false ∧
    (initiate_request connResp Method.Get "http://e" [] o0).isOk = true :=
  ⟨rfl, rfl⟩

/-- Claim C3 (amended): `initiate_request` panics exactly when the phase is
`Request`; from `New` and from `Response` it never panics, so a connection
may start a new request after a completed response cycle (it is not
single-use), while calling `initiate_request` twice without an intervening
response cycle still panics. -/
theorem claim_C3_amended (c : EspHttpConnection) (method : Method) (uri : String)
    (headers : List (String × String)) (o : RequestOracle) :
    (c.state = State.Request →
      initiate_request c method uri headers o = ReqResult.panicked) ∧
    (c.state ≠ State.Request →
      initiate_request c method uri headers o ≠ ReqResult.panicked) := by
  constructor
  · intro h
    unfold initiate_request
    rw [if_pos]
    unfold assert_initial_panics
    rw [h]
    decide
  · intro h
    have hp : assert_initial_panics c.state = false := by
      cases hs : c.state
      · rfl
      · exact absurd hs h
      · rfl
    unfold initiate_request
    simp only [hp, Bool.false_eq_true, if_false]
    split
    · simp
    · split
      · simp
      · split
        · simp
        · simp

/-- Claim C3 witness: the amended theorem at concrete connections. -/
theorem claim_C3_witness :
    initiate_request connRequest Method.Get "http://e" [] o0 = ReqResult.panicked ∧
    initiate_request connResp Method.Get "http://e" [] o0 ≠ ReqResult.panicked :=
  ⟨(claim_C3_amended connRequest Method.Get "http://e" [] o0).1 rfl,
    (claim_C3_amended connResp Method.Get "http://e" [] o0).2 (by decide)⟩

/-- Claim C4 counterexample: with both native `open` calls failing
(`ESP_FAIL`, code `-1`), `initiate_request` still returns success — the
open failure is not surfaced to the caller as an error. -/
theorem claim_C4_counterexample :
    (initiate_request connNew Method.Get "http://e" [] oOpenFail).isOk = true := rfl

/-- Claim C4 (amended): `initiate_request` discards the return codes of
both native `open` invocations (the one inside `ClientFuture::new` and the
one after the await): its result is the same whatever codes the native
`open` returns, so a failing `open` is never surfaced to the caller as an
error (nor retried). -/
theorem claim_C4_amended (c : EspHttpConnection) (method : Method) (uri : String)
    (headers : List (String × String)) (o : RequestOracle) (x y : Int) :
    initiate_request c method uri headers { o with open_err_1 := x, open_err_2 := y }
      = initiate_request c method uri headers o :=
  initiate_request_ignores_open c method uri headers o x y

/-- Claim C10: every successful `initiate_request` issues exactly two
native `open` calls, both with the declared request body length recorded in
the returned connection, and the result is unchanged by any return codes of
those `open` calls (both are discarded). -/
theorem claim_C10 (c : EspHttpConnection) (method : Method) (uri : String)
    (headers : List (String × String)) (o : RequestOracle) (c1 : EspHttpConnection)
    (calls : List NativeCall)
    (h : initiate_request c method uri headers o = ReqResult.ok c1 calls) :
    calls.filter isOpenCall
        = [NativeCall.openCall c1.request_content_len,
            NativeCall.openCall c1.request_content_len] ∧
    (∀ x y,
      initiate_request c method uri headers { o with open_err_1 := x, open_err_2 := y }
        = ReqResult.ok c1 calls) := by
  constructor
  · unfold initiate_request at h
    split at h
    · cases h
    · split at h
      · cases h
      · split at h
        · cases h
        · split at h
          · cases h
          · rename_i heq
            cases h
            simp only [List.filter_append, List.filter_cons, List.filter_nil]
            rw [setHeaders_calls_no_open _ _ _ _ _ heq]
            simp [isOpenCall, register_handler]
  · intro x y
    rw [initiate_request_ignores_open, h]

/-- Headers of a request declaring `Content-Length: 42`. -/
def hsCL : List (String × String) := [("Content-Length", "42")]

/-- The connection produced by a successful `initiate_request` of a GET
with `Content-Length: 42` on a fresh default connection. -/
def cReq42 : EspHttpConnection :=
  { connNew with
    follow_redirects := true
    request_content_len := 42
    event_handler := some Handler.completionBridge
    state := State.Request }

/-- The native-call trace of that request. -/
def callsReq42 : List NativeCall :=
  [NativeCall.setUrl "http://e", NativeCall.setMethod Method.Get,
    NativeCall.setHeader "Content-Length" "42",
    NativeCall.openCall 42, NativeCall.openCall 42]

/-- Claim C10 witness: the theorem at a concrete request, including that
failing `open` codes leave the successful result unchanged. -/
theorem claim_C10_witness :
    callsReq42.filter isOpenCall = [NativeCall.openCall 42, NativeCall.openCall 42] ∧
    initiate_request connNew Method.Get "http://e" hsCL
        { o0 with open_err_1 := -1, open_err_2 := -2 }
      = ReqResult.ok cReq42 callsReq42 := by
  have h := claim_C10 connNew Method.Get "http://e" hsCL o0 cReq42 callsReq42 rfl
  exact ⟨h.1, h.2 (-1) (-2)⟩

/-- Claim C1 counterexample: a successful `initiate_request` returns with
the Completion Bridge handler still registered in the event-handler slot —
the slot is not empty when the operation returns control to the caller. -/
theorem claim_C1_counterexample :
    (initiate_request connNew Method.Get "http://e" [] o0).handlerOf
      = some (some Handler.completionBridge) := rfl

/-- Claim C1 (amended): the header-fetch loop deregisters its handler
unconditionally, so `fetch_headers` always returns (success or native
failure) with an empty handler slot; `initiate_request`, however, never
deregisters the Completion Bridge handler registered by
`ClientFuture::new`, so on successful return the slot still holds it. -/
theorem claim_C1_amended :
    (∀ (c : EspHttpConnection) (attempts : List Attempt) (c1 : EspHttpConnection)
        (log : FetchLog),
      fetch_headers c attempts = OpResult.ok c1 log → c1.event_handler = none) ∧
    (∀ (c : EspHttpConnection) (attempts : List Attempt) (e : Int)
        (c1 : EspHttpConnection) (log : FetchLog),
      fetch_headers c attempts = OpResult.err e c1 log → c1.event_handler = none) ∧
    (∀ (c : EspHttpConnection) (method : Method) (uri : String)
        (headers : List (String × String)) (o : RequestOracle)
        (c1 : EspHttpConnection) (calls : List NativeCall),
      initiate_request c method uri headers o = ReqResult.ok c1 calls →
      c1.event_handler = some Handler.completionBridge) := by
  refine ⟨?_, ?_, ?_⟩
  · intro c attempts c1 log h
    exact (fetchLoop_handler_none attempts _ _).1 c1 log h
  · intro c attempts e c1 log h
    exact (fetchLoop_handler_none attempts _ _).2 e c1 log h
  · intro c method uri headers o c1 calls h
    unfold initiate_request at h
    split at h
    · cases h
    · split at h
      · cases h
      · split at h
        · cases h
        · split at h
          · cases h
          · cases h
            rfl

/-- Claim C1 witness: the amended theorem at concrete runs — a successful
header fetch leaves the slot empty, a failed one leaves it empty, and a
successful `initiate_request` leaves the bridge handler in it. -/
theorem claim_C1_witness :
    ({ connRequest with
        headers := hempty
        content_len_header := none
        event_handler := none } : EspHttpConnection).event_handler = none ∧
    cReq42.event_handler = some Handler.completionBridge :=
  ⟨claim_C1_amended.1 connRequest [a200] _ _ rfl,
    claim_C1_amended.2.2 connNew Method.Get "http://e" hsCL o0 cReq42 callsReq42 rfl⟩

/-- Claim C5: after a successful header fetch, the loop enters another
iteration exactly when the effective follow-redirects flag is set, the
status is in the 3xx class, and the status is not 304; on re-entry it
flushes the buffered response, forces the method to GET, invokes the
redirect-preparation primitive and re-opens with the original declared body
length; a 304 with follow-redirects enabled (and likewise a non-3xx status,
or a cleared flag) exits the loop after this iteration. -/
theorem claim_C5 (c : EspHttpConnection) (a : Attempt) (rest : List Attempt)
    (log : FetchLog) :
    (c.follow_redirects = true → 0 ≤ a.fetch_result →
      redirectContains a.status_code = true → a.status_code ≠ 304 →
      a.flush_err = 0 → a.set_method_err = 0 → a.set_redirection_err = 0 →
      a.open_err = 0 →
      fetchLoop c (a :: rest) log
        = fetchLoop { c with event_handler := none, headers := hempty } rest
            ⟨log.calls ++
                [NativeCall.fetchHeadersCall, NativeCall.getStatusCode,
                  NativeCall.flushResponse, NativeCall.setMethod Method.Get,
                  NativeCall.setRedirection, NativeCall.openCall c.request_content_len],
              log.at_fetch ++ [(c.headers, c.content_len_header)]⟩) ∧
    (c.follow_redirects = false → 0 ≤ a.fetch_result →
      fetchLoop c (a :: rest) log
        = OpResult.ok
            { c with event_handler := none, headers := runHandler c.headers a.events }
            ⟨log.calls ++ [NativeCall.fetchHeadersCall],
              log.at_fetch ++ [(c.headers, c.content_len_header)]⟩) ∧
    (c.follow_redirects = true → 0 ≤ a.fetch_result → a.status_code = 304 →
      fetchLoop c (a :: rest) log
        = OpResult.ok
            { c with event_handler := none, headers := runHandler c.headers a.events }
            ⟨log.calls ++ [NativeCall.fetchHeadersCall, NativeCall.getStatusCode],
              log.at_fetch ++ [(c.headers, c.content_len_header)]⟩) ∧
    (c.follow_redirects = true → 0 ≤ a.fetch_result →
      redirectContains a.status_code = false →
      fetchLoop c (a :: rest) log
        = OpResult.ok
            { c with event_handler := none, headers := runHandler c.headers a.events }
            ⟨log.calls ++ [NativeCall.fetchHeadersCall, NativeCall.getStatusCode],
              log.at_fetch ++ [(c.headers, c.content_len_header)]⟩) := by
  refine ⟨?_, ?_, ?_, ?_⟩
  · intro hfol hres h3xx h304 he1 he2 he3 he4
    exact fetchLoop_cons_redirect c a rest log hfol hres h3xx h304 he1 he2 he3 he4
  · intro hfol hres
    exact fetchLoop_cons_nofollow c a rest log hfol hres
  · intro hfol hres h304
    exact fetchLoop_cons_noredirect c a rest log hfol hres (Or.inr h304)
  · intro hfol hres hnot
    exact fetchLoop_cons_noredirect c a rest log hfol hres (Or.inl hnot)

/-- Claim C5 witness: a concrete 301 iteration re-enters the loop with the
redirect-preparation calls and the original declared length, and a concrete
304 iteration with follow-redirects enabled exits after one fetch. -/
theorem claim_C5_witness :
    fetchLoop connRequestF [a301, a200] ⟨[], []⟩
      = fetchLoop { connRequestF with event_handler := none, headers := hempty } [a200]
          ⟨[NativeCall.fetchHeadersCall, NativeCall.getStatusCode,
              NativeCall.flushResponse, NativeCall.setMethod Method.Get,
              NativeCall.setRedirection, NativeCall.openCall 0],
            [(hempty, none)]⟩ ∧
    fetchLoop connRequestF [a304] ⟨[], []⟩
      = OpResult.ok
          { connRequestF with event_handler := none, headers := runHandler hempty [] }
          ⟨[NativeCall.fetchHeadersCall, NativeCall.getStatusCode], [(hempty, none)]⟩ :=
  ⟨(claim_C5 connRequestF a301 [a200] ⟨[], []⟩).1 rfl (by decide) (by decide) (by decide)
      rfl rfl rfl rfl,
    (claim_C5 connRequestF a304 [] ⟨[], []⟩).2.2.1 rfl (by decide) rfl⟩

/-- Claim C6: with follow-redirects effective, for any oracle consisting of
N successfully-fetched 3xx (non-304) responses followed by a successfully
fetched 200, `initiate_response` succeeds, the native fetch-headers
primitive is invoked exactly N+1 times, the final header store holds
exactly the headers delivered during the last fetch, and the connection
enters `Response` phase. -/
theorem claim_C6 (c : EspHttpConnection) (redirs : List Attempt) (final : Attempt)
    (hstate : c.state = State.Request) (hfol : c.follow_redirects = true)
    (hred : ∀ a ∈ redirs, isRedirectAttempt a) (hfin : isFinalOk final) :
    ∃ c1 log1,
      initiate_response c (redirs ++ [final]) = OpResult.ok c1 log1 ∧
      countFetch log1.calls = redirs.length + 1 ∧
      c1.headers = runHandler hempty final.events ∧
      c1.state = State.Response := by
  obtain ⟨c2, log2, heq, hcount, hhd, hev, hst⟩ :=
    fetchLoop_redirect_chain redirs
      { c with headers := hempty, content_len_header := none } ⟨[], []⟩ final hfol rfl
      hred hfin
  refine ⟨{ c2 with state := State.Response }, log2, ?_, ?_, ?_, rfl⟩
  · unfold initiate_response
    rw [if_neg (by simp [hstate])]
    unfold fetch_headers
    rw [heq]
  · simpa [countFetch] using hcount
  · simpa using hhd

/-- Claim C6 witness: one 301 redirect followed by a 200 delivering one
header — two fetch invocations, final store from the last fetch only. -/
theorem claim_C6_witness :
    ∃ c1 log1,
      initiate_response connRequestF [a301, a200h] = OpResult.ok c1 log1 ∧
      countFetch log1.calls = 2 ∧
      c1.headers = runHandler hempty a200h.events ∧
      c1.state = State.Response :=
  claim_C6 connRequestF [a301] a200h rfl rfl (by decide) (by decide)

/-- Claim C7: at the moment of every `esp_http_client_fetch_headers`
invocation of a header fetch — the first iteration and every redirect retry
alike — the header store is empty and the cached content length is
cleared. -/
theorem claim_C7 (c : EspHttpConnection) (attempts : List Attempt)
    (s : HeaderMap × Option (Option String))
    (hs : s ∈ (fetch_headers c attempts).logOf.at_fetch) :
    s.1 = hempty ∧ s.2 = none := by
  have hgood :=
    fetchLoop_snaps attempts { c with headers := hempty, content_len_header := none }
      ⟨[], []⟩ rfl rfl (fun t ht => absurd ht (List.not_mem_nil t)) s hs
  exact hgood

/-- Claim C7 witness: the theorem at a concrete redirect run (a 301 retry
followed by a 200). -/
theorem claim_C7_witness :
    ((hempty : HeaderMap), (none : Option (Option String))).1 = hempty ∧
    ((hempty : HeaderMap), (none : Option (Option String))).2 = none :=
  claim_C7 connRequestF [a301, a200] (hempty, none)
    (List.mem_append.mpr (Or.inl (List.mem_singleton.mpr rfl)))

/-- Claim C8 counterexample: in `Response` phase with an unset cache, a
first `header("Content-Length")` call on which the native accessor reports
unknown (negative) queries the accessor — and so does the next call: the
negative result is not cached, contradicting "subsequent calls return the
cached value without querying the native accessor again, regardless of
what the accessor returned". -/
theorem claim_C8_counterexample :
    (header connResp (-1) "Content-Length").callsOf = some [NativeCall.getContentLength] ∧
    (header ((header connResp (-1) "Content-Length").connOr connResp) (-1)
        "Content-Length").callsOf
      = some [NativeCall.getContentLength] :=
  ⟨rfl, rfl⟩

/-- Claim C8 (amended): in `Response` phase, a `Content-Length` query with
an unset cache triggers exactly one native length query; a nonnegative
accessor result is cached and every later query in the same response phase
returns the cached value with no native query; a negative accessor result
is not cached, so the next query invokes the accessor again. -/
theorem claim_C8_amended (c : EspHttpConnection) (len : Int) (name : String)
    (v : Option String)
    (hstate : c.state = State.Response)
    (hname : eqIgnoreCase name "Content-Length" = true) :
    (c.content_len_header = none → 0 ≤ len →
      header c len name
        = HeaderResult.ok { c with content_len_header := some (some (toString len)) }
            (some (toString len)) [NativeCall.getContentLength]) ∧
    (c.content_len_header = some v →
      header c len name = HeaderResult.ok c v []) ∧
    (c.content_len_header = none → len < 0 →
      header c len name
        = HeaderResult.ok { c with content_len_header := none } none
            [NativeCall.getContentLength]) := by
  refine ⟨?_, ?_, ?_⟩
  · intro hcache hlen
    unfold header
    rw [if_neg (by simp [hstate]), if_pos hname, hcache]
    simp only [if_pos hlen]
    rfl
  · intro hcache
    unfold header
    rw [if_neg (by simp [hstate]), if_pos hname, hcache]
  · intro hcache hlen
    unfold header
    rw [if_neg (by simp [hstate]), if_pos hname, hcache]
    rw [if_neg (by omega)]
    rfl

/-- Claim C8 witness: the amended theorem at a concrete response — a
nonnegative accessor result is cached and a later differently-cased query
returns it without a native call. -/
theorem claim_C8_witness :
    header connResp 5 "Content-Length"
      = HeaderResult.ok { connResp with content_len_header := some (some "5") }
          (some "5") [NativeCall.getContentLength] ∧
    header { connResp with content_len_header := some (some "5") } (-3) "content-length"
      = HeaderResult.ok { connResp with content_len_header := some (some "5") }
          (some "5") [] :=
  ⟨(claim_C8_amended connResp 5 "Content-Length" none rfl (by decide)).1 rfl (by decide),
    (claim_C8_amended { connResp with content_len_header := some (some "5") } (-3)
        "content-length" (some "5") rfl (by decide)).2.1 rfl⟩

/-- A fetch delivering a `Content-Length: 5` header event. -/
def evCL : List HttpEvent := [⟨HTTP_EVENT_ON_HEADER, "Content-Length", "5"⟩]

/-- A response-phase connection whose store was filled by that fetch. -/
def connRespCL : EspHttpConnection := { connResp with headers := runHandler hempty evCL }

/-- Claim C9 counterexample: a header-received event delivered
`Content-Length: 5` (so the latest value for that name is `"5"`), yet
`header("Content-Length")` answers from the native length accessor — here
reporting unknown — and returns nothing: the round-trip fails for the
name `Content-Length`. -/
theorem claim_C9_counterexample :
    latestHeaderValue evCL "Content-Length" = some "5" ∧
    (header connRespCL (-1) "Content-Length").valueOf = some none :=
  ⟨rfl, rfl⟩

/-- Claim C9 (amended): for every name that is not case-insensitively equal
to `Content-Length`, a `header(name)` query in `Response` phase over a
store populated by any sequence of header-received events returns exactly
the latest value delivered for that name, case-insensitively at insertion
and at query time (`Content-Length` itself is special-cased to the native
length accessor and bypasses the store). -/
theorem claim_C9_amended (events : List HttpEvent) (c : EspHttpConnection)
    (len : Int) (name : String)
    (hstate : c.state = State.Response)
    (hname : eqIgnoreCase name "Content-Length" = false)
    (hheaders : c.headers = runHandler hempty events) :
    header c len name = HeaderResult.ok c (latestHeaderValue events name) [] := by
  unfold header
  rw [if_neg (by simp [hstate]), if_neg (by simp [hname])]
  rw [hheaders, hget_runHandler_empty]

/-- Two header events for the same name in different casings. -/
def evs2 : List HttpEvent :=
  [⟨HTTP_EVENT_ON_HEADER, "x-a", "1"⟩, ⟨HTTP_EVENT_ON_HEADER, "X-A", "2"⟩]

/-- A response-phase connection whose store was filled by those events. -/
def connRespH : EspHttpConnection := { connResp with headers := runHandler hempty evs2 }

/-- Claim C9 witness: the amended theorem at a concrete store — the later
event wins and the lookup succeeds under a third casing of the name. -/
theorem claim_C9_witness :
    header connRespH 0 "X-a" = HeaderResult.ok connRespH (some "2") [] :=
  claim_C9_amended evs2 connRespH 0 "X-a" rfl (by decide) rfl

end ClientAsync
